import Mathlib

/-!
Verification of the Generator bootstrap (`src/app.js`): module-path
sandboxing, plugin directory scanning, semver-based version resolution,
connection option construction and lifecycle exit codes, shallowly embedded
as executable Lean definitions.
-/

namespace GeneratorApp

/-! ## Character and string helpers (JS string semantics on char lists) -/

def isDigitCh (c : Char) : Bool := '0' ≤ c && c ≤ '9'

def isAlphaCh (c : Char) : Bool := ('a' ≤ c && c ≤ 'z') || ('A' ≤ c && c ≤ 'Z')

/-- Characters allowed in semver identifiers: `[0-9A-Za-z-]`. -/
def isIdentCh (c : Char) : Bool := isDigitCh c || isAlphaCh c || c == '-'

def isSpaceCh (c : Char) : Bool := c == ' ' || c == '\t' || c == '\n' || c == '\r'

/-- Model of `String.prototype.trim` (ASCII whitespace). -/
def trimL (l : List Char) : List Char :=
  ((l.dropWhile isSpaceCh).reverse.dropWhile isSpaceCh).reverse

def chToDigit (c : Char) : Nat := c.toNat - '0'.toNat

def digitsVal (l : List Char) : Nat := l.foldl (fun acc c => acc * 10 + chToDigit c) 0

/-- Split a char list at the first occurrence of `sep`:
    returns the part before it and, when present, the part after it. -/
def splitFirst (sep : Char) : List Char → List Char × Option (List Char)
  | [] => ([], none)
  | c :: rest =>
    if c = sep then ([], some rest)
    else
      let r := splitFirst sep rest
      (c :: r.1, r.2)

/-- Split a char list on every occurrence of `sep` (like `String.prototype.split`). -/
def splitAllCh (sep : Char) : List Char → List (List Char)
  | [] => [[]]
  | c :: rest =>
    if c = sep then [] :: splitAllCh sep rest
    else
      match splitAllCh sep rest with
      | h :: t => (c :: h) :: t
      | [] => [[c]]

def cmpNat (a b : Nat) : Ordering :=
  if a < b then .lt else if b < a then .gt else .eq

def cmpChar (a b : Char) : Ordering :=
  if a < b then .lt else if b < a then .gt else .eq

/-- Lexicographic comparison of char lists (JS `<`/`>` on strings). -/
def cmpCharList : List Char → List Char → Ordering
  | [], [] => .eq
  | [], _ :: _ => .lt
  | _ :: _, [] => .gt
  | a :: as, b :: bs => (cmpChar a b).then (cmpCharList as bs)

def cmpStr (a b : String) : Ordering := cmpCharList a.data b.data

/-! ## Semantic versions

Modelled from the spec: the `semver` dependency (not part of this
repository's sources) implementing Semantic Versioning 2.0.0 —
`semver.valid` (strict parse, optional leading `v`, trimmed, length-bounded,
numeric components bounded by `Number.MAX_SAFE_INTEGER`) and
`semver.compare`/`semver.rcompare` precedence. -/

def SEMVER_MAX_SAFE : Nat := 9007199254740991

/-- A prerelease identifier: numeric (compared numerically) or
    alphanumeric (compared lexically). -/
inductive PreId where
  | num (n : Nat)
  | alpha (s : String)
deriving Repr, DecidableEq

structure SemVer where
  major : Nat
  minor : Nat
  patch : Nat
  prerelease : List PreId
deriving Repr, DecidableEq

/-- Parse a main-version numeric identifier: nonempty, all digits,
    no leading zero, bounded by `MAX_SAFE_INTEGER`. -/
def parseNumIdL (l : List Char) : Option Nat :=
  if l.isEmpty then none
  else if !(l.all isDigitCh) then none
  else if 1 < l.length ∧ l.head? = some '0' then none
  else
    let n := digitsVal l
    if n ≤ SEMVER_MAX_SAFE then some n else none

/-- Parse a prerelease identifier: `0|[1-9]\d*|\d*[a-zA-Z-][a-zA-Z0-9-]*`;
    all-digit identifiers below `MAX_SAFE_INTEGER` become numeric. -/
def parsePreIdL (l : List Char) : Option PreId :=
  if l.isEmpty then none
  else if l.all isDigitCh then
    if 1 < l.length ∧ l.head? = some '0' then none
    else
      let n := digitsVal l
      if n < SEMVER_MAX_SAFE then some (PreId.num n) else some (PreId.alpha ⟨l⟩)
  else if l.all isIdentCh then some (PreId.alpha ⟨l⟩)
  else none

/-- `semver.valid`-style strict parse of a version string. -/
def semverParse (input : String) : Option SemVer :=
  let t := trimL input.data
  if 256 < t.length then none else
  let t := match t with
    | 'v' :: rest => rest
    | other => other
  let mb := splitFirst '+' t
  let buildOk := match mb.2 with
    | none => true
    | some b => (splitAllCh '.' b).all (fun bid => !bid.isEmpty && bid.all isIdentCh)
  if !buildOk then none else
  let mp := splitFirst '-' mb.1
  match (splitAllCh '.' mp.1).map parseNumIdL with
  | [some major, some minor, some patch] =>
    match mp.2 with
    | none => some ⟨major, minor, patch, []⟩
    | some p =>
      match (splitAllCh '.' p).mapM parsePreIdL with
      | some pre => some ⟨major, minor, patch, pre⟩
      | none => none
  | _ => none

/-- `semver.valid(s)` used as a boolean (the source only tests truthiness). -/
def semverValid (s : String) : Bool := (semverParse s).isSome

def comparePreId : PreId → PreId → Ordering
  | .num a, .num b => cmpNat a b
  | .num _, .alpha _ => .lt
  | .alpha _, .num _ => .gt
  | .alpha a, .alpha b => cmpStr a b

/-- Element-wise comparison of prerelease identifier lists;
    running out of identifiers first means lower precedence. -/
def comparePreIds : List PreId → List PreId → Ordering
  | [], [] => .eq
  | [], _ :: _ => .lt
  | _ :: _, [] => .gt
  | a :: as, b :: bs => (comparePreId a b).then (comparePreIds as bs)

/-- Prerelease precedence: a version with a prerelease sorts below the same
    version without one. -/
def comparePrerelease : List PreId → List PreId → Ordering
  | [], [] => .eq
  | [], _ :: _ => .gt
  | _ :: _, [] => .lt
  | a, b => comparePreIds a b

/-- `semver.compare` precedence on parsed versions. -/
def compareSemVer (a b : SemVer) : Ordering :=
  (cmpNat a.major b.major).then
    ((cmpNat a.minor b.minor).then
      ((cmpNat a.patch b.patch).then (comparePrerelease a.prerelease b.prerelease)))

/-- `semver.rcompare` on version strings (reverse comparison). At its use
    site (`pluginSet.sort`, src/app.js:327-329) every version has been
    normalized to a valid one; on invalid input node-semver would throw,
    modelled here by the unreachable `Ordering.eq` fallback. -/
def rcompareVersions (a b : String) : Ordering :=
  match semverParse a, semverParse b with
  | some va, some vb => compareSemVer vb va
  | _, _ => Ordering.eq

/-! ## ModuleSandbox (src/app.js:27-41)

`Module._nodeModulePaths` is patched to filter the node-computed candidate
search paths through `global.whitelistedModuleFolders`. The filter callback
returns the path itself when some whitelist entry passes the
`path.substring(0, p.length) === p` test, and `undefined` otherwise, so a
candidate is kept exactly when such an entry exists and the path is a
truthy (nonempty) string. The node-internal computation of the unfiltered
candidate list is taken as the `paths` parameter. -/

/-- `path.substring(0, p.length) === p`: entry `p` is a character-for-character
    prefix of `path`. -/
def substrPrefixEq (p path : String) : Bool :=
  decide (path.data.take p.data.length = p.data)

def strNonempty (s : String) : Bool := !s.data.isEmpty

/-- Truthiness of the patched filter callback at `path`. -/
def moduleFilterKeeps (whitelist : List String) (path : String) : Bool :=
  whitelist.any (fun p => substrPrefixEq p path) && strNonempty path

/-- The patched `Module._nodeModulePaths` result: node's candidate search
    paths filtered by the sandbox whitelist. -/
def filteredModulePaths (whitelist paths : List String) : List String :=
  paths.filter (fun path => moduleFilterKeeps whitelist path)

/-! ## PluginDirectoryScanner (src/app.js:145-242)

The filesystem and the generator collaborator (`getPluginMetadata`,
`checkPluginCompatibility`) are abstracted as a `ScanEnv` of functions;
operations that the source wraps in `try`/`catch` are modelled as
`Except`-returning functions. -/

structure Metadata where
  name : String
  version : String
deriving Repr, DecidableEq

structure PluginDescriptor where
  path : String
  metadata : Metadata
deriving Repr, DecidableEq

/-- Result of `checkPluginCompatibility`. -/
structure Compat where
  compatible : Bool
  message : Option String
deriving Repr, DecidableEq

structure ScanEnv where
  /-- `process.cwd()` (an absolute path). -/
  cwd : String
  /-- `fs.statSync(path).isDirectory()`; `Except.error` models a throw. -/
  stat : String → Except String Bool
  /-- `fs.readdirSync`; `Except.error` models a throw. -/
  readdir : String → Except String (List String)
  /-- `theGenerator.getPluginMetadata`; `Except.error` models a throw. -/
  getPluginMetadata : String → Except String Metadata
  /-- `theGenerator.checkPluginCompatibility`; `Except.error` models a throw. -/
  checkPluginCompatibility : Metadata → Except String Compat

def startsWithSlash (s : String) : Bool := s.data.head? == some '/'

/-- Model of node `path.resolve(base, p)` (posix), simplified: an absolute
    second argument wins, an empty one yields the base, otherwise the two are
    joined with a separator; no `..`/`.` segment normalization. -/
def resolvePath (base p : String) : String :=
  if startsWithSlash p then p
  else if p = "" then base
  else base ++ "/" ++ p

/-- `checkIfPathDirectory` (src/app.js:175-183): a `statSync` throw is caught
    (and logged) yielding `false`. -/
def checkIfPathDirectory (env : ScanEnv) (absolutePath : String) : Bool :=
  match env.stat absolutePath with
  | .ok b => b
  | .error _ => false

/-- `verifyPluginAtPath` (src/app.js:150-173): extract metadata and check
    compatibility; any throw is caught and ignored (`result` stays `null`);
    only a compatible candidate yields a descriptor. -/
def verifyPluginAtPath (env : ScanEnv) (absolutePath : String) :
    Option PluginDescriptor :=
  match env.getPluginMetadata absolutePath with
  | .error _ => none
  | .ok metadata =>
    match env.checkPluginCompatibility metadata with
    | .error _ => none
    | .ok compatibility =>
      if compatibility.compatible then
        some ⟨absolutePath, metadata⟩
      else
        none

/-- `listPluginsInDirectory` (src/app.js:148-221): resolve the folder against
    the cwd, require it to be a directory, try the folder itself as a plugin,
    and only if that yields nothing test each immediate child directory.
    A `readdirSync` throw propagates (caught by the caller). -/
def listPluginsInDirectory (env : ScanEnv) (directory : String) :
    Except String (List PluginDescriptor) :=
  let absolutePath := resolvePath env.cwd directory
  if !checkIfPathDirectory env absolutePath then .ok []
  else
    match verifyPluginAtPath env absolutePath with
    | some p => .ok [p]
    | none =>
      match env.readdir absolutePath with
      | .error e => .error e
      | .ok children =>
        .ok ((((children.map (fun child => resolvePath absolutePath child)).filter
          (fun c => checkIfPathDirectory env c)).filterMap
            (fun c => verifyPluginAtPath env c)))

/-- The process-wide state touched by `scanPluginDirectories`: the module
    folder whitelist and the accumulated descriptor list. -/
structure ScanState where
  whitelist : List String
  allPlugins : List PluginDescriptor
deriving Repr, DecidableEq

/-- One iteration of the folder loop (src/app.js:227-239): push the folder
    argument verbatim onto the whitelist, then scan it; a scan error is
    caught and logged, leaving the accumulated plugins unchanged. -/
def scanFolder (env : ScanEnv) (st : ScanState) (f : String) : ScanState :=
  let st1 : ScanState := { st with whitelist := st.whitelist ++ [f] }
  match listPluginsInDirectory env f with
  | .ok ps => { st1 with allPlugins := st1.allPlugins ++ ps }
  | .error _ => st1

/-- `scanPluginDirectories` (src/app.js:145-242) over an explicit folder
    list (a single non-array argument is wrapped into a one-element list by
    the source before this loop). -/
def scanPluginDirectories (env : ScanEnv) (folders : List String)
    (st : ScanState) : ScanState :=
  folders.foldl (scanFolder env) st

/-! ## VersionResolver (src/app.js:291-354)

The plugin-loading phase of `setupGenerator`'s start callback: whitelist
filtering, version normalization, grouping into `pluginMap` (a string-keyed
object with insertion-ordered keys, modelled as an association list),
descending-semver sort and first-success-wins loading. The generator's
`loadPlugin` is abstracted as an `Except`-returning function. -/

def PLUGIN_KEY_PREFIX : String := "PLUGIN-"

/-- `whiteListedPlugins.indexOf(name) === -1` test (JS `===` equality). -/
def containsStr (wl : List String) (s : String) : Bool :=
  wl.any (fun w => w = s)

/-- `argv.whiteListedPlugins.split(",").map(s => s.trim())` (src/app.js:299). -/
def parseWhiteList (s : String) : List String :=
  (splitAllCh ',' s.data).map (fun l => (⟨trimL l⟩ : String))

/-- Version normalization (src/app.js:311-313): an invalid version is
    overwritten with the sentinel `"0.0.0"`. -/
def normalizeDescriptor (p : PluginDescriptor) : PluginDescriptor :=
  if semverValid p.metadata.version then p
  else { p with metadata := { p.metadata with version := "0.0.0" } }

/-- `pluginMap[key].push(p)`, creating the key on first use
    (src/app.js:314-317); key insertion order is preserved as in a JS
    object with non-index string keys. -/
def insertPlugin (m : List (String × List PluginDescriptor)) (key : String)
    (p : PluginDescriptor) : List (String × List PluginDescriptor) :=
  match m with
  | [] => [(key, [p])]
  | (k, ps) :: rest =>
    if k = key then (k, ps ++ [p]) :: rest
    else (k, ps) :: insertPlugin rest key p

/-- One iteration of the `plugins.forEach` body (src/app.js:306-318):
    skip a descriptor absent from the whitelist (in whitelist mode),
    normalize its version, and push it into its name's group. -/
def addToMap (shouldWhiteList : Bool) (wl : List String)
    (m : List (String × List PluginDescriptor)) (p : PluginDescriptor) :
    List (String × List PluginDescriptor) :=
  if shouldWhiteList && !(containsStr wl p.metadata.name) then m
  else
    let q := normalizeDescriptor p
    insertPlugin m (PLUGIN_KEY_PREFIX ++ q.metadata.name) q

def buildPluginMap (shouldWhiteList : Bool) (wl : List String)
    (plugins : List PluginDescriptor) : List (String × List PluginDescriptor) :=
  plugins.foldl (addToMap shouldWhiteList wl) []

/-- The sort comparator `(a, b) => semver.rcompare(a.metadata.version,
    b.metadata.version)` (src/app.js:327-329) read as "a may stay before b"
    (comparator value ≤ 0), giving descending version order. -/
def sortKeepsBefore (a b : PluginDescriptor) : Bool :=
  rcompareVersions a.metadata.version b.metadata.version ≠ Ordering.gt

/-- A candidate list sorted descending by semantic version: no adjacent pair
    is out of order under the `semver.rcompare` comparator. -/
def sortedDescBySemver : List PluginDescriptor → Bool
  | [] => true
  | [_] => true
  | a :: b :: rest =>
    (rcompareVersions a.metadata.version b.metadata.version != Ordering.gt) &&
      sortedDescBySemver (b :: rest)

instance {ε α : Type} [DecidableEq ε] [DecidableEq α] :
    DecidableEq (Except ε α) := fun a b =>
  match a, b with
  | .error e1, .error e2 =>
    if h : e1 = e2 then .isTrue (by rw [h])
    else .isFalse (fun hh => h (Except.error.inj hh))
  | .ok a1, .ok a2 =>
    if h : a1 = a2 then .isTrue (by rw [h])
    else .isFalse (fun hh => h (Except.ok.inj hh))
  | .error _, .ok _ => .isFalse (fun hh => Except.noConfusion hh)
  | .ok _, .error _ => .isFalse (fun hh => Except.noConfusion hh)

/-- Stable insertion step for the comparator-based sort. -/
def insertSorted (le : α → α → Bool) (x : α) : List α → List α
  | [] => [x]
  | y :: ys => if le x y then x :: y :: ys else y :: insertSorted le x ys

/-- Comparator-based sort modelling `Array.prototype.sort`. -/
def sortBy (le : α → α → Bool) (l : List α) : List α :=
  l.foldr (insertSorted le) []

def sortPluginSet (ps : List PluginDescriptor) : List PluginDescriptor :=
  sortBy sortKeepsBefore ps

/-- The error line logged for a failed load attempt (src/app.js:336-337). -/
def loadFailureMessage (path msg : String) : String :=
  "Unable to load plugin at '" ++ path ++ "': " ++ msg

/-- Outcome of the per-group loading loop (src/app.js:331-344): whether a
    candidate loaded, the candidates attempted in order, and the failure
    log lines produced. -/
structure GroupResult where
  loaded : Bool
  attempts : List PluginDescriptor
  log : List String
deriving Repr, DecidableEq

/-- The per-group loading loop (src/app.js:331-344): attempt candidates in
    list order; a throw is logged with the attempted path and message and the
    next candidate is tried; the first success stops the loop. -/
def loadPluginSet (load : String → Except String Unit) :
    List PluginDescriptor → GroupResult
  | [] => ⟨false, [], []⟩
  | p :: rest =>
    match load p.path with
    | .ok _ => ⟨true, [p], []⟩
    | .error msg =>
      let r := loadPluginSet load rest
      ⟨r.loaded, p :: r.attempts, loadFailureMessage p.path msg :: r.log⟩

/-- The contribution of one group to `totalPluginCount`
    (src/app.js:340-343). -/
def groupLoadCount (r : GroupResult) : Nat := if r.loaded then 1 else 0

/-- Aggregate outcome of the resolution phase. -/
structure ResolveResult where
  totalPluginCount : Nat
  attempts : List PluginDescriptor
  log : List String
deriving Repr, DecidableEq

/-- One iteration of the `Object.keys(pluginMap).forEach` loop
    (src/app.js:322-346): sort the group descending by version, run the
    loading loop, and accumulate the count, attempts and log. -/
def resolveStep (load : String → Except String Unit) (acc : ResolveResult)
    (kv : String × List PluginDescriptor) : ResolveResult :=
  let r := loadPluginSet load (sortPluginSet kv.2)
  ⟨acc.totalPluginCount + groupLoadCount r,
   acc.attempts ++ r.attempts,
   acc.log ++ r.log⟩

/-- The whitelist list in force: parsed entries in whitelist mode, unused
    empty list otherwise (src/app.js:295-300). -/
def effectiveWhiteList (whiteListedPlugins : Option String) : List String :=
  match whiteListedPlugins with
  | some s => parseWhiteList s
  | none => []

/-- The whole resolution phase (src/app.js:294-346): whitelist parsing and
    filtering, version normalization, grouping, per-group descending-version
    sort, and first-success-wins loading; `whiteListedPlugins` is the raw
    `argv.whiteListedPlugins` value (`none` models a non-string value, in
    which case whitelist mode is off). -/
def resolvePlugins (load : String → Except String Unit)
    (whiteListedPlugins : Option String)
    (plugins : List PluginDescriptor) : ResolveResult :=
  (buildPluginMap whiteListedPlugins.isSome (effectiveWhiteList whiteListedPlugins)
      plugins).foldl (resolveStep load) ⟨0, [], []⟩

/-! ## Lifecycle outcome (src/app.js:137-143, 349-354, 364-370, 372-382) -/

/-- The rejection message for the zero-plugins case (src/app.js:351). -/
def zeroPluginsMessage : String :=
  "Generator requires at least one plugin to function, zero were loaded."

/-- Exit code passed to `stop` by `init`'s failure handler (src/app.js:368). -/
def initFailureExitCode : Int := -3

/-- Exit code passed to `stop` by the `uncaughtException` handler
    (src/app.js:381). -/
def uncaughtExceptionExitCode : Int := -1

/-- Exit code passed to `stop` after the generator's close event
    (src/app.js:261). -/
def closeExitCode : Int := 0

/-- End of `setupGenerator`'s start callback (src/app.js:349-354): with zero
    loaded plugins the startup promise is rejected, otherwise resolved. -/
def setupOutcome (r : ResolveResult) : Except String Unit :=
  if r.totalPluginCount = 0 then .error zeroPluginsMessage else .ok ()

/-- `init` (src/app.js:364-370): a rejected startup promise invokes
    `stop(-3, "Generator failed to initialize: " + err)`, terminating the
    process; a fulfilled one exits nothing. -/
def initExit (outcome : Except String Unit) : Option (Int × String) :=
  match outcome with
  | .error err => some (initFailureExitCode, "Generator failed to initialize: " ++ err)
  | .ok _ => none

/-! ## ConnectionBootstrap (src/app.js:265-287)

`argv` values are JS values (number, string or `null`); the options object is
modelled with one `Option` field per key the source may assign, `none`
meaning the key was never assigned. The final `options.config` assignment
copies an external configuration object and is not part of transport
selection, so it is not modelled. -/

inductive JSValue where
  | num (n : Int)
  | str (s : String)
  | null
deriving Repr, DecidableEq

def isNumV : JSValue → Bool
  | .num _ => true
  | _ => false

def isStrV : JSValue → Bool
  | .str _ => true
  | _ => false

/-- JS truthiness of the modelled values. -/
def truthyV : JSValue → Bool
  | .num n => n ≠ 0
  | .str s => s ≠ ""
  | .null => false

/-- The parsed CLI arguments consumed by the options construction. -/
structure Argv where
  input : JSValue
  output : JSValue
  port : JSValue
  host : JSValue
  password : JSValue
  photoshopVersion : JSValue
  photoshopPath : JSValue
  photoshopBinaryPath : JSValue
deriving Repr, DecidableEq

structure ConnectionOptions where
  inputFd : Option JSValue := none
  outputFd : Option JSValue := none
  port : Option JSValue := none
  hostname : Option JSValue := none
  password : Option JSValue := none
  photoshopVersion : Option JSValue := none
  photoshopPath : Option JSValue := none
  photoshopBinaryPath : Option JSValue := none
deriving Repr, DecidableEq

/-- Options construction (src/app.js:265-285): pipe transport when input and
    output are both numbers or both strings (password assigned `null`),
    otherwise socket transport when the port is a number and host and
    password are truthy; string-typed truthy passthrough fields are copied. -/
def buildOptions (a : Argv) : ConnectionOptions :=
  let o : ConnectionOptions := {}
  let o :=
    if (isNumV a.input && isNumV a.output) || (isStrV a.input && isStrV a.output) then
      { o with inputFd := some a.input, outputFd := some a.output,
               password := some JSValue.null }
    else if isNumV a.port && truthyV a.host && truthyV a.password then
      { o with port := some a.port, hostname := some a.host,
               password := some a.password }
    else o
  let o :=
    if truthyV a.photoshopVersion && isStrV a.photoshopVersion then
      { o with photoshopVersion := some a.photoshopVersion }
    else o
  let o :=
    if truthyV a.photoshopPath && isStrV a.photoshopPath then
      { o with photoshopPath := some a.photoshopPath }
    else o
  let o :=
    if truthyV a.photoshopBinaryPath && isStrV a.photoshopBinaryPath then
      { o with photoshopBinaryPath := some a.photoshopBinaryPath }
    else o
  o

/-! ## Helper lemmas -/

/-- Membership of a descriptor in some group of a plugin map. -/
def MemMap (q : PluginDescriptor)
    (m : List (String × List PluginDescriptor)) : Prop :=
  ∃ kv ∈ m, q ∈ kv.2

theorem containsStr_iff (wl : List String) (s : String) :
    containsStr wl s = true ↔ s ∈ wl := by
  unfold containsStr
  rw [List.any_eq_true]
  constructor
  · rintro ⟨w, hw, hws⟩
    exact (of_decide_eq_true hws) ▸ hw
  · intro h
    exact ⟨s, h, by simp⟩

theorem normalizeDescriptor_path (p : PluginDescriptor) :
    (normalizeDescriptor p).path = p.path := by
  unfold normalizeDescriptor; split <;> rfl

theorem normalizeDescriptor_name (p : PluginDescriptor) :
    (normalizeDescriptor p).metadata.name = p.metadata.name := by
  unfold normalizeDescriptor; split <;> rfl

theorem memMap_insertPlugin (m : List (String × List PluginDescriptor))
    (k : String) (p q : PluginDescriptor) :
    MemMap q (insertPlugin m k p) ↔ MemMap q m ∨ q = p := by
  induction m with
  | nil => simp [insertPlugin, MemMap]
  | cons kv rest ih =>
    obtain ⟨k0, ps⟩ := kv
    simp only [insertPlugin]
    split
    · simp only [MemMap, List.mem_cons]
      aesop
    · simp only [MemMap, List.mem_cons] at ih ⊢
      aesop

theorem memMap_foldl_addToMap (swl : Bool) (wl : List String)
    (plugins : List PluginDescriptor)
    (m0 : List (String × List PluginDescriptor)) (q : PluginDescriptor) :
    MemMap q (plugins.foldl (addToMap swl wl) m0) ↔
      MemMap q m0 ∨ ∃ p ∈ plugins,
        (swl && !(containsStr wl p.metadata.name)) = false ∧
        q = normalizeDescriptor p := by
  induction plugins generalizing m0 with
  | nil => simp
  | cons p rest ih =>
    simp only [List.foldl_cons]
    rw [ih]
    unfold addToMap
    split
    · rename_i hskip
      constructor
      · rintro (h | ⟨p2, hp2, hc, hq⟩)
        · exact Or.inl h
        · exact Or.inr ⟨p2, List.mem_cons_of_mem _ hp2, hc, hq⟩
      · rintro (h | ⟨p2, hp2, hc, hq⟩)
        · exact Or.inl h
        · rcases List.mem_cons.mp hp2 with rfl | hp2
          · exact absurd hskip (by simp [hc])
          · exact Or.inr ⟨p2, hp2, hc, hq⟩
    · rename_i hkeep
      rw [memMap_insertPlugin]
      constructor
      · rintro ((h | rfl) | ⟨p2, hp2, hc, hq⟩)
        · exact Or.inl h
        · exact Or.inr ⟨p, List.mem_cons_self _ _, by simpa using hkeep, rfl⟩
        · exact Or.inr ⟨p2, List.mem_cons_of_mem _ hp2, hc, hq⟩
      · rintro (h | ⟨p2, hp2, hc, hq⟩)
        · exact Or.inl (Or.inl h)
        · rcases List.mem_cons.mp hp2 with rfl | hp2
          · exact Or.inl (Or.inr hq)
          · exact Or.inr ⟨p2, hp2, hc, hq⟩

theorem memMap_buildPluginMap (swl : Bool) (wl : List String)
    (plugins : List PluginDescriptor) (q : PluginDescriptor) :
    MemMap q (buildPluginMap swl wl plugins) ↔
      ∃ p ∈ plugins,
        (swl && !(containsStr wl p.metadata.name)) = false ∧
        q = normalizeDescriptor p := by
  rw [buildPluginMap, memMap_foldl_addToMap]
  simp [MemMap]

theorem mem_insertSorted (le : α → α → Bool) (x : α) (l : List α) (q : α) :
    q ∈ insertSorted le x l ↔ q = x ∨ q ∈ l := by
  induction l with
  | nil => simp [insertSorted]
  | cons y ys ih =>
    simp only [insertSorted]
    split
    · simp
    · simp only [List.mem_cons, ih]
      tauto

theorem mem_sortBy (le : α → α → Bool) (l : List α) (q : α) :
    q ∈ sortBy le l ↔ q ∈ l := by
  induction l with
  | nil => simp [sortBy]
  | cons x xs ih =>
    simp only [sortBy, List.foldr_cons] at ih ⊢
    rw [mem_insertSorted, ih, List.mem_cons]

theorem mem_sortPluginSet (ps : List PluginDescriptor) (q : PluginDescriptor) :
    q ∈ sortPluginSet ps ↔ q ∈ ps :=
  mem_sortBy _ ps q

theorem attempts_loadPluginSet_subset (load : String → Except String Unit)
    (ps : List PluginDescriptor) (q : PluginDescriptor)
    (h : q ∈ (loadPluginSet load ps).attempts) : q ∈ ps := by
  induction ps with
  | nil => simp [loadPluginSet] at h
  | cons p rest ih =>
    rcases hl : load p.path with msg | u <;>
      simp only [loadPluginSet, hl] at h
    · simp only [List.mem_cons] at h ⊢
      rcases h with rfl | h
      · exact Or.inl rfl
      · exact Or.inr (ih h)
    · simp only [List.mem_singleton] at h
      simp [h]

theorem attempts_foldl_resolveStep (load : String → Except String Unit)
    (m : List (String × List PluginDescriptor)) (acc : ResolveResult)
    (q : PluginDescriptor) :
    q ∈ (m.foldl (resolveStep load) acc).attempts ↔
      q ∈ acc.attempts ∨
      ∃ kv ∈ m, q ∈ (loadPluginSet load (sortPluginSet kv.2)).attempts := by
  induction m generalizing acc with
  | nil => simp
  | cons kv rest ih =>
    simp only [List.foldl_cons, ih, resolveStep, List.mem_append, List.mem_cons]
    constructor
    · rintro ((h | h) | ⟨kv2, h2, hq⟩)
      · exact Or.inl h
      · exact Or.inr ⟨kv, Or.inl rfl, h⟩
      · exact Or.inr ⟨kv2, Or.inr h2, hq⟩
    · rintro (h | ⟨kv2, rfl | h2, hq⟩)
      · exact Or.inl (Or.inl h)
      · exact Or.inl (Or.inr hq)
      · exact Or.inr ⟨kv2, h2, hq⟩

theorem attempts_resolvePlugins (load : String → Except String Unit)
    (wlp : Option String) (plugins : List PluginDescriptor)
    (q : PluginDescriptor)
    (h : q ∈ (resolvePlugins load wlp plugins).attempts) :
    ∃ p ∈ plugins,
      (wlp.isSome && !(containsStr (effectiveWhiteList wlp) p.metadata.name)) = false ∧
      q = normalizeDescriptor p := by
  rw [resolvePlugins, attempts_foldl_resolveStep] at h
  rcases h with h | ⟨kv, hkv, hq⟩
  · simp at h
  · have hmem : q ∈ kv.2 :=
      (mem_sortPluginSet _ _).mp (attempts_loadPluginSet_subset _ _ _ hq)
    exact (memMap_buildPluginMap _ _ _ _).mp ⟨kv, hkv, hmem⟩

theorem resolvePath_startsWithSlash (base p : String)
    (h : startsWithSlash base = true) :
    startsWithSlash (resolvePath base p) = true := by
  unfold resolvePath
  split
  · assumption
  · split
    · exact h
    · unfold startsWithSlash at h ⊢
      rw [String.data_append, String.data_append]
      rcases hb : base.data with _ | ⟨c, cs⟩
      · rw [hb] at h; simp at h
      · rw [hb] at h; simpa using h

theorem verifyPluginAtPath_path (env : ScanEnv) (absolutePath : String)
    (d : PluginDescriptor)
    (h : verifyPluginAtPath env absolutePath = some d) :
    d.path = absolutePath := by
  unfold verifyPluginAtPath at h
  split at h
  · exact Option.noConfusion h
  · split at h
    · exact Option.noConfusion h
    · split at h
      · cases h; rfl
      · exact Option.noConfusion h

theorem listPluginsInDirectory_paths_abs (env : ScanEnv) (directory : String)
    (ps : List PluginDescriptor)
    (hcwd : startsWithSlash env.cwd = true)
    (h : listPluginsInDirectory env directory = .ok ps) :
    ∀ p ∈ ps, startsWithSlash p.path = true := by
  simp only [listPluginsInDirectory] at h
  have habs : startsWithSlash (resolvePath env.cwd directory) = true :=
    resolvePath_startsWithSlash _ _ hcwd
  split at h
  · cases h; simp
  · split at h
    · rename_i d hd
      cases h
      intro p hp
      rw [List.mem_singleton.mp hp, verifyPluginAtPath_path _ _ _ hd]
      exact habs
    · rcases henv : env.readdir (resolvePath env.cwd directory) with e | children <;>
        rw [henv] at h
      · cases h
      · cases h
        intro p hp
        rcases List.mem_filterMap.mp hp with ⟨c, hc, hv⟩
        have hc2 := List.mem_filter.mp hc |>.1
        rcases List.mem_map.mp hc2 with ⟨child, _, rfl⟩
        rw [verifyPluginAtPath_path _ _ _ hv]
        exact resolvePath_startsWithSlash _ _ habs

theorem substrPrefixEq_false_of_relative (f s : String)
    (hrel : startsWithSlash f = false) (hne : f ≠ "")
    (hs : startsWithSlash s = true) : substrPrefixEq f s = false := by
  unfold substrPrefixEq
  unfold startsWithSlash at hrel hs
  rcases hf : f.data with _ | ⟨c, cs⟩
  · exact absurd (String.ext (by rw [hf])) hne
  · rcases hsd : s.data with _ | ⟨c2, cs2⟩
    · rw [hsd] at hs; simp at hs
    · rw [hsd] at hs
      rw [hf] at hrel
      simp only [List.head?_cons] at hrel hs
      have hc2 : c2 = '/' := by simpa using hs
      have hc : ¬(c = '/') := by simpa using hrel
      subst hc2
      simp only [List.length_cons, List.take_succ_cons, decide_eq_false_iff_not]
      intro heq
      exact hc ((List.cons.injEq _ _ _ _).mp heq).1.symm

/-! ## Claim theorems -/

/-- C2: the patched module-resolution function includes a candidate search
    path in its result only if some entry of the registered sandbox whitelist
    is a string prefix of it, so a path outside every registered root never
    appears in the resolved search paths. -/
theorem sandbox_admits_only_whitelisted (whitelist paths : List String)
    (path : String) (h : path ∈ filteredModulePaths whitelist paths) :
    ∃ p ∈ whitelist, substrPrefixEq p path = true := by
  rw [filteredModulePaths, List.mem_filter] at h
  have hk := h.2
  rw [moduleFilterKeeps, Bool.and_eq_true, List.any_eq_true] at hk
  exact hk.1

theorem sandbox_admits_only_whitelisted_witness :
    "/app/node_modules" ∈ filteredModulePaths ["/app"] ["/app/node_modules", "/etc"] ∧
    ∃ p ∈ ["/app"], substrPrefixEq p "/app/node_modules" = true :=
  ⟨by decide,
   sandbox_admits_only_whitelisted ["/app"] ["/app/node_modules", "/etc"]
     "/app/node_modules" (by decide)⟩

/-- C10 counterexample: the whitelist entry `""` is a character-for-character
    prefix of the candidate path `""`, yet the filter does not admit that
    path (the callback returns the path itself, and an empty string is
    falsy), refuting "admits a candidate search path exactly when some
    whitelist entry is a plain character-for-character prefix of it". -/
theorem sandbox_filter_empty_path_refutation :
    substrPrefixEq "" "" = true ∧ "" ∉ filteredModulePaths [""] [""] := by
  decide

/-- C10 (amended): the sandbox path filter admits a candidate search path
    exactly when the path is a nonempty string and some whitelist entry is a
    plain character-for-character prefix of it — no path-separator boundary
    is required, so any nonempty path extending a registered root (e.g. a
    sibling directory whose name begins with the root's last component) is
    also admitted. -/
theorem sandbox_filter_characterization (whitelist paths : List String)
    (path : String) :
    path ∈ filteredModulePaths whitelist paths ↔
      path ∈ paths ∧ strNonempty path = true ∧
        ∃ p ∈ whitelist, substrPrefixEq p path = true := by
  rw [filteredModulePaths, List.mem_filter, moduleFilterKeeps,
    Bool.and_eq_true, List.any_eq_true]
  tauto

/-- C3: if the total number of successfully loaded plugins is zero, the
    startup promise is rejected with the zero-plugins message and `init`
    terminates the process via `stop(-3, ...)`, an exit code that is nonzero
    and distinct from the uncaught-exception and normal-close codes. -/
theorem zero_plugins_is_fatal (load : String → Except String Unit)
    (wlp : Option String) (plugins : List PluginDescriptor)
    (h : (resolvePlugins load wlp plugins).totalPluginCount = 0) :
    setupOutcome (resolvePlugins load wlp plugins) =
      Except.error zeroPluginsMessage ∧
    initExit (setupOutcome (resolvePlugins load wlp plugins)) =
      some (initFailureExitCode,
        "Generator failed to initialize: " ++ zeroPluginsMessage) ∧
    initFailureExitCode ≠ 0 ∧
    initFailureExitCode ≠ uncaughtExceptionExitCode ∧
    initFailureExitCode ≠ closeExitCode := by
  refine ⟨?_, ?_, by decide, by decide, by decide⟩
  · rw [setupOutcome, if_pos h]
  · rw [setupOutcome, if_pos h]; rfl

theorem zero_plugins_is_fatal_witness :
    (resolvePlugins (fun _ => Except.ok ()) none []).totalPluginCount = 0 ∧
    initExit (setupOutcome (resolvePlugins (fun _ => Except.ok ()) none [])) =
      some (initFailureExitCode,
        "Generator failed to initialize: " ++ zeroPluginsMessage) :=
  ⟨rfl, (zero_plugins_is_fatal (fun _ => Except.ok ()) none [] rfl).2.1⟩

/-- The concrete argument vector for the C6 counterexample: numeric input
    and output handles together with a nonempty password argument. -/
def pipeArgvWithPassword : Argv :=
  { input := JSValue.num 3, output := JSValue.num 4,
    port := JSValue.num 49494, host := JSValue.str "127.0.0.1",
    password := JSValue.str "secret",
    photoshopVersion := JSValue.null, photoshopPath := JSValue.null,
    photoshopBinaryPath := JSValue.null }

/-- C6 counterexample: with numeric input and output handles and a supplied
    password, the constructed options select the pipe transport, but the
    password field is not absent — the source assigns `options.password =
    null`, so the key is present with the value `null`. -/
theorem pipe_options_password_present_refutation :
    (buildOptions pipeArgvWithPassword).inputFd = some (JSValue.num 3) ∧
    (buildOptions pipeArgvWithPassword).outputFd = some (JSValue.num 4) ∧
    truthyV pipeArgvWithPassword.password = true ∧
    ¬((buildOptions pipeArgvWithPassword).password = none) ∧
    (buildOptions pipeArgvWithPassword).password = some JSValue.null := by
  decide

/-- C6 (amended): whenever the input and output handle arguments are both
    supplied with the same kind (both numeric or both strings), the
    constructed options select the pipe transport (input/output descriptors
    set, no socket fields) and the password field is set to `null` — no
    supplied password value reaches the options. -/
theorem pipe_options_password_null (a : Argv)
    (h : ((isNumV a.input && isNumV a.output) ||
          (isStrV a.input && isStrV a.output)) = true) :
    (buildOptions a).inputFd = some a.input ∧
    (buildOptions a).outputFd = some a.output ∧
    (buildOptions a).password = some JSValue.null ∧
    (buildOptions a).port = none ∧
    (buildOptions a).hostname = none := by
  simp only [buildOptions]
  rw [if_pos h]
  split <;> split <;> split <;> simp

theorem pipe_options_password_null_witness :
    ((isNumV pipeArgvWithPassword.input && isNumV pipeArgvWithPassword.output) ||
     (isStrV pipeArgvWithPassword.input && isStrV pipeArgvWithPassword.output)) = true ∧
    (buildOptions pipeArgvWithPassword).password = some JSValue.null :=
  ⟨by decide, (pipe_options_password_null pipeArgvWithPassword (by decide)).2.2.1⟩

/-- C1: for a plugin group whose candidates are sorted descending by
    semantic version, the loading loop attempts candidates strictly in that
    order; every failing load is logged with the attempted path and message
    and the next candidate is tried; the first success stops the loop —
    no lower-precedence candidate is attempted — and the group counts as
    loaded exactly once. -/
theorem group_load_first_success (load : String → Except String Unit)
    (em : String → String) (fails : List PluginDescriptor)
    (succ : PluginDescriptor) (rest : List PluginDescriptor)
    (hsorted : sortedDescBySemver (fails ++ succ :: rest) = true)
    (hfail : ∀ p ∈ fails, load p.path = Except.error (em p.path))
    (hsucc : load succ.path = Except.ok ()) :
    loadPluginSet load (fails ++ succ :: rest) =
      ⟨true, fails ++ [succ],
       fails.map (fun p => loadFailureMessage p.path (em p.path))⟩ ∧
    groupLoadCount (loadPluginSet load (fails ++ succ :: rest)) = 1 := by
  have main : ∀ fs : List PluginDescriptor,
      (∀ p ∈ fs, load p.path = Except.error (em p.path)) →
      loadPluginSet load (fs ++ succ :: rest) =
        ⟨true, fs ++ [succ],
         fs.map (fun p => loadFailureMessage p.path (em p.path))⟩ := by
    intro fs
    induction fs with
    | nil =>
      intro _
      simp only [List.nil_append, loadPluginSet, hsucc, List.map_nil]
    | cons f fs2 ih =>
      intro hf
      have hstep := hf f (List.mem_cons_self _ _)
      have hrest := ih (fun p hp => hf p (List.mem_cons_of_mem _ hp))
      simp only [List.cons_append, loadPluginSet, hstep, List.append_eq,
        hrest, List.map_cons]
  refine ⟨main fails hfail, ?_⟩
  rw [main fails hfail]
  rfl

/-- Load collaborator for the C1 witness: version 2.0.0 throws, everything
    else loads. -/
def demoLoad : String → Except String Unit :=
  fun path => if path = "/plugins/v2" then Except.error "boom" else Except.ok ()

theorem group_load_first_success_witness :
    sortedDescBySemver
      [⟨"/plugins/v2", ⟨"demo", "2.0.0"⟩⟩, ⟨"/plugins/v1", ⟨"demo", "1.0.0"⟩⟩,
       ⟨"/plugins/v0", ⟨"demo", "0.5.0"⟩⟩] = true ∧
    loadPluginSet demoLoad
      [⟨"/plugins/v2", ⟨"demo", "2.0.0"⟩⟩, ⟨"/plugins/v1", ⟨"demo", "1.0.0"⟩⟩,
       ⟨"/plugins/v0", ⟨"demo", "0.5.0"⟩⟩] =
      ⟨true,
       [⟨"/plugins/v2", ⟨"demo", "2.0.0"⟩⟩, ⟨"/plugins/v1", ⟨"demo", "1.0.0"⟩⟩],
       [loadFailureMessage "/plugins/v2" "boom"]⟩ :=
  ⟨by decide,
   (group_load_first_success demoLoad (fun _ => "boom")
      [⟨"/plugins/v2", ⟨"demo", "2.0.0"⟩⟩] ⟨"/plugins/v1", ⟨"demo", "1.0.0"⟩⟩
      [⟨"/plugins/v0", ⟨"demo", "0.5.0"⟩⟩]
      (by decide) (by decide) (by decide)).1⟩

/-- C4 counterexample: `"0.0.0-alpha"` is a valid semantic version of
    another candidate in the same group, yet the sentinel `"0.0.0"`
    substituted for the unparseable version `"bogus"` does not order
    strictly lower than it — `semver.rcompare` places the sentinel first
    (higher precedence), as the sorted group shows. -/
theorem sentinel_not_lowest_refutation :
    semverValid "bogus" = false ∧
    normalizeDescriptor ⟨"/plugins/a", ⟨"demo", "bogus"⟩⟩ =
      ⟨"/plugins/a", ⟨"demo", "0.0.0"⟩⟩ ∧
    semverValid "0.0.0-alpha" = true ∧
    rcompareVersions "0.0.0" "0.0.0-alpha" = Ordering.lt ∧
    sortPluginSet
      [⟨"/plugins/b", ⟨"demo", "0.0.0-alpha"⟩⟩,
       ⟨"/plugins/a", ⟨"demo", "0.0.0"⟩⟩] =
      [⟨"/plugins/a", ⟨"demo", "0.0.0"⟩⟩,
       ⟨"/plugins/b", ⟨"demo", "0.0.0-alpha"⟩⟩] := by
  decide

/-- C4 (amended): a descriptor surviving whitelist filtering whose version
    string fails to parse is kept with the sentinel version `"0.0.0"` (never
    rejected); the sentinel parses as version 0.0.0 with no prerelease, and
    it orders strictly lower than every valid version whose
    major.minor.patch triple is not 0.0.0 (for versions with triple 0.0.0
    the sentinel ties with `"0.0.0"` itself and orders above its
    prereleases). -/
theorem invalid_version_sentinel (plugins : List PluginDescriptor)
    (p : PluginDescriptor) (swl : Bool) (wl : List String)
    (hp : p ∈ plugins)
    (hkeep : (swl && !(containsStr wl p.metadata.name)) = false)
    (hinvalid : semverValid p.metadata.version = false) :
    MemMap { p with metadata := { p.metadata with version := "0.0.0" } }
      (buildPluginMap swl wl plugins) ∧
    semverParse "0.0.0" = some ⟨0, 0, 0, []⟩ ∧
    (∀ (s : String) (v : SemVer), semverParse s = some v →
      ¬(v.major = 0 ∧ v.minor = 0 ∧ v.patch = 0) →
      compareSemVer ⟨0, 0, 0, []⟩ v = Ordering.lt) := by
  refine ⟨?_, by decide, ?_⟩
  · apply (memMap_buildPluginMap swl wl plugins _).mpr
    refine ⟨p, hp, hkeep, ?_⟩
    rw [normalizeDescriptor, if_neg (by simp [hinvalid])]
  · intro s v _ hv
    obtain ⟨M, m, pa, pre⟩ := v
    simp only at hv
    rcases Nat.eq_zero_or_pos M with rfl | hM
    · rcases Nat.eq_zero_or_pos m with rfl | hm
      · rcases Nat.eq_zero_or_pos pa with rfl | hpa
        · exact absurd ⟨rfl, rfl, rfl⟩ hv
        · simp [compareSemVer, cmpNat, Nat.lt_irrefl, hpa, Ordering.then]
      · simp [compareSemVer, cmpNat, Nat.lt_irrefl, hm, Ordering.then]
    · simp [compareSemVer, cmpNat, Nat.lt_irrefl, hM, Ordering.then]

theorem invalid_version_sentinel_witness :
    ((⟨"/plugins/a", ⟨"demo", "bogus"⟩⟩ : PluginDescriptor) ∈
      [(⟨"/plugins/a", ⟨"demo", "bogus"⟩⟩ : PluginDescriptor)]) ∧
    MemMap ⟨"/plugins/a", ⟨"demo", "0.0.0"⟩⟩
      (buildPluginMap false [] [⟨"/plugins/a", ⟨"demo", "bogus"⟩⟩]) :=
  ⟨by decide,
   (invalid_version_sentinel [⟨"/plugins/a", ⟨"demo", "bogus"⟩⟩]
      ⟨"/plugins/a", ⟨"demo", "bogus"⟩⟩ false [] (by decide) (by decide)
      (by decide)).1⟩

/-- C5: in whitelist mode, a discovered descriptor whose metadata name is
    not an exact (case-sensitive, trimmed) match of a whitelist entry is
    discarded before grouping — no group contains a descriptor with its
    name — and no load attempt, successful or failed, is ever made for it. -/
theorem whitelist_excludes_plugin (load : String → Except String Unit)
    (s : String) (plugins : List PluginDescriptor) (p : PluginDescriptor)
    (h : p.metadata.name ∉ parseWhiteList s) :
    (∀ kv ∈ buildPluginMap true (parseWhiteList s) plugins,
        ∀ q ∈ kv.2, q.metadata.name ≠ p.metadata.name) ∧
    (∀ q ∈ (resolvePlugins load (some s) plugins).attempts,
        q.metadata.name ≠ p.metadata.name) := by
  have hname : ∀ q : PluginDescriptor,
      (∃ p2 ∈ plugins,
        (true && !(containsStr (parseWhiteList s) p2.metadata.name)) = false ∧
        q = normalizeDescriptor p2) →
      q.metadata.name ≠ p.metadata.name := by
    rintro q ⟨p2, _, hc, rfl⟩
    simp only [Bool.true_and, Bool.not_eq_false'] at hc
    rw [normalizeDescriptor_name]
    intro heq
    exact h (heq ▸ (containsStr_iff _ _).mp hc)
  constructor
  · intro kv hkv q hq
    exact hname q ((memMap_buildPluginMap true _ plugins q).mp ⟨kv, hkv, hq⟩)
  · intro q hq
    have hatt := attempts_resolvePlugins load (some s) plugins q hq
    exact hname q (by simpa [effectiveWhiteList] using hatt)

theorem whitelist_excludes_plugin_witness :
    ("gamma" ∉ parseWhiteList "alpha, beta") ∧
    (∀ q ∈ (resolvePlugins (fun _ => Except.ok ()) (some "alpha, beta")
        [⟨"/plugins/g", ⟨"gamma", "1.0.0"⟩⟩]).attempts,
      q.metadata.name ≠ "gamma") :=
  ⟨by decide,
   (whitelist_excludes_plugin (fun _ => Except.ok ()) "alpha, beta"
      [⟨"/plugins/g", ⟨"gamma", "1.0.0"⟩⟩] ⟨"/plugins/g", ⟨"gamma", "1.0.0"⟩⟩
      (by decide)).2⟩

/-- C7: for a scanned folder that is a directory, the scanner first treats
    the folder itself as a candidate plugin and, exactly when that yields a
    descriptor, returns it alone without enumerating children; only when the
    folder yields no descriptor does it test each immediate child directory
    (one level, no recursion into `listPluginsInDirectory`); and an
    exception from metadata extraction makes the candidate yield `none`
    rather than propagate. -/
theorem scanner_root_first_then_children (env : ScanEnv) (directory : String)
    (hdir : checkIfPathDirectory env (resolvePath env.cwd directory) = true) :
    (∀ d, verifyPluginAtPath env (resolvePath env.cwd directory) = some d →
      listPluginsInDirectory env directory = Except.ok [d]) ∧
    (verifyPluginAtPath env (resolvePath env.cwd directory) = none →
      listPluginsInDirectory env directory =
        (env.readdir (resolvePath env.cwd directory)).map
          (fun children =>
            ((children.map
                (fun child => resolvePath (resolvePath env.cwd directory) child)).filter
              (fun c => checkIfPathDirectory env c)).filterMap
                (fun c => verifyPluginAtPath env c))) ∧
    (∀ path msg, env.getPluginMetadata path = Except.error msg →
      verifyPluginAtPath env path = none) := by
  refine ⟨?_, ?_, ?_⟩
  · intro d hd
    simp [listPluginsInDirectory, hdir, hd]
  · intro hn
    simp only [listPluginsInDirectory, hdir, Bool.not_true, if_false, hn]
    rcases hr : env.readdir (resolvePath env.cwd directory) with e | children <;>
      simp [hr, Except.map]
  · intro path msg h
    simp [verifyPluginAtPath, h]

/-- Concrete scan environment reused by several witnesses: every path is a
    directory, the root path itself carries a compatible plugin, and
    directories have no children. -/
def rootPluginEnv : ScanEnv :=
  { cwd := "/work"
    stat := fun _ => Except.ok true
    readdir := fun _ => Except.ok []
    getPluginMetadata := fun _ => Except.ok ⟨"demo", "1.0.0"⟩
    checkPluginCompatibility := fun _ => Except.ok ⟨true, none⟩ }

theorem scanner_root_first_then_children_witness :
    checkIfPathDirectory rootPluginEnv (resolvePath rootPluginEnv.cwd "plugs") = true ∧
    listPluginsInDirectory rootPluginEnv "plugs" =
      Except.ok [⟨"/work/plugs", ⟨"demo", "1.0.0"⟩⟩] :=
  ⟨by decide,
   (scanner_root_first_then_children rootPluginEnv "plugs" (by decide)).1
     ⟨"/work/plugs", ⟨"demo", "1.0.0"⟩⟩ (by decide)⟩

/-- C8 counterexample: version normalization mutates the descriptor created
    by the scanner — grouping the single descriptor with the unparseable
    version `"not-a-version"` produces a descriptor whose
    `metadata.version` is `"0.0.0"`, and the scanner-created value is no
    longer present anywhere in the map. -/
theorem descriptor_mutation_refutation :
    buildPluginMap false [] [⟨"/plugins/x", ⟨"demo", "not-a-version"⟩⟩] =
      [("PLUGIN-demo", [⟨"/plugins/x", ⟨"demo", "0.0.0"⟩⟩])] ∧
    ¬MemMap ⟨"/plugins/x", ⟨"demo", "not-a-version"⟩⟩
      (buildPluginMap false [] [⟨"/plugins/x", ⟨"demo", "not-a-version"⟩⟩]) := by
  constructor
  · decide
  · rintro ⟨kv, hkv, hq⟩
    revert hq
    rcases List.mem_singleton.mp (by exact hkv) with rfl
    decide

/-- C8 (amended): after grouping, every descriptor in every group comes from
    a scanner-created descriptor with the same path and metadata name, and
    with the metadata version unchanged when it parses as a valid semantic
    version and replaced by the sentinel `"0.0.0"` otherwise; the later
    sorting and loading stages never alter descriptor values (sorting
    permutes the group, and every attempted descriptor is a member of the
    sorted group). -/
theorem descriptor_fields_preserved :
    (∀ (swl : Bool) (wl : List String) (plugins : List PluginDescriptor)
        (q : PluginDescriptor),
      MemMap q (buildPluginMap swl wl plugins) →
      ∃ p ∈ plugins, q.path = p.path ∧ q.metadata.name = p.metadata.name ∧
        ((semverValid p.metadata.version = true ∧
          q.metadata.version = p.metadata.version) ∨
         (semverValid p.metadata.version = false ∧
          q.metadata.version = "0.0.0"))) ∧
    (∀ (ps : List PluginDescriptor) (q : PluginDescriptor),
      q ∈ sortPluginSet ps ↔ q ∈ ps) ∧
    (∀ (load : String → Except String Unit) (ps : List PluginDescriptor)
        (q : PluginDescriptor),
      q ∈ (loadPluginSet load ps).attempts → q ∈ ps) := by
  refine ⟨?_, mem_sortPluginSet, attempts_loadPluginSet_subset⟩
  intro swl wl plugins q hq
  rcases (memMap_buildPluginMap swl wl plugins q).mp hq with ⟨p, hp, _, rfl⟩
  refine ⟨p, hp, normalizeDescriptor_path p, normalizeDescriptor_name p, ?_⟩
  by_cases hv : semverValid p.metadata.version = true
  · exact Or.inl ⟨hv, by rw [normalizeDescriptor, if_pos hv]⟩
  · refine Or.inr ⟨by simpa using hv, ?_⟩
    rw [normalizeDescriptor, if_neg hv]

theorem descriptor_fields_preserved_witness :
    MemMap ⟨"/plugins/x", ⟨"demo", "0.0.0"⟩⟩
      (buildPluginMap false [] [⟨"/plugins/x", ⟨"demo", "not-a-version"⟩⟩]) ∧
    ∃ p ∈ ([⟨"/plugins/x", ⟨"demo", "not-a-version"⟩⟩] : List PluginDescriptor),
      (⟨"/plugins/x", ⟨"demo", "0.0.0"⟩⟩ : PluginDescriptor).path = p.path ∧
      (⟨"/plugins/x", ⟨"demo", "0.0.0"⟩⟩ : PluginDescriptor).metadata.name =
        p.metadata.name ∧
      ((semverValid p.metadata.version = true ∧
        (⟨"/plugins/x", ⟨"demo", "0.0.0"⟩⟩ : PluginDescriptor).metadata.version =
          p.metadata.version) ∨
       (semverValid p.metadata.version = false ∧
        (⟨"/plugins/x", ⟨"demo", "0.0.0"⟩⟩ : PluginDescriptor).metadata.version =
          "0.0.0")) :=
  ⟨⟨("PLUGIN-demo", [⟨"/plugins/x", ⟨"demo", "0.0.0"⟩⟩]), by decide, by decide⟩,
   descriptor_fields_preserved.1 false [] _ _
     ⟨("PLUGIN-demo", [⟨"/plugins/x", ⟨"demo", "0.0.0"⟩⟩]), by decide, by decide⟩⟩

/-- C9 counterexample: the empty string is a relative folder argument (it
    does not start with a separator), the scanner registers it verbatim on
    the whitelist while scanning the cwd-resolved path, and here the
    registered entry is a string prefix of the resulting descriptor's
    absolute path, refuting the claimed non-prefix consequence. -/
theorem relative_folder_registered_verbatim_refutation :
    startsWithSlash "" = false ∧
    (scanFolder rootPluginEnv ⟨["/install"], []⟩ "").whitelist =
      ["/install", ""] ∧
    (scanFolder rootPluginEnv ⟨["/install"], []⟩ "").allPlugins =
      [⟨"/work", ⟨"demo", "1.0.0"⟩⟩] ∧
    substrPrefixEq "" "/work" = true := by
  decide

/-- C9 (amended): the scanner registers the folder argument verbatim on the
    module whitelist (before any path resolution), while scanning uses the
    cwd-resolved absolute path; for every nonempty relative folder argument
    the registered entry is not a string prefix of any newly produced
    descriptor's absolute path. -/
theorem relative_folder_whitelist_mismatch (env : ScanEnv) (st : ScanState)
    (f : String) (hcwd : startsWithSlash env.cwd = true)
    (hrel : startsWithSlash f = false) (hne : f ≠ "") :
    (scanFolder env st f).whitelist = st.whitelist ++ [f] ∧
    ∀ p ∈ (scanFolder env st f).allPlugins,
      p ∈ st.allPlugins ∨ substrPrefixEq f p.path = false := by
  rcases hscan : listPluginsInDirectory env f with e | ps <;>
    simp only [scanFolder, hscan]
  · exact ⟨trivial, fun p hp => Or.inl hp⟩
  · refine ⟨trivial, ?_⟩
    intro p hp
    rcases List.mem_append.mp hp with h | h
    · exact Or.inl h
    · exact Or.inr (substrPrefixEq_false_of_relative f p.path hrel hne
        (listPluginsInDirectory_paths_abs env f ps hcwd hscan p h))

theorem relative_folder_whitelist_mismatch_witness :
    startsWithSlash rootPluginEnv.cwd = true ∧
    startsWithSlash "plugs" = false ∧
    "plugs" ≠ "" ∧
    (scanFolder rootPluginEnv ⟨["/install"], []⟩ "plugs").whitelist =
      ["/install", "plugs"] ∧
    ∀ p ∈ (scanFolder rootPluginEnv ⟨["/install"], []⟩ "plugs").allPlugins,
      p ∈ ([] : List PluginDescriptor) ∨ substrPrefixEq "plugs" p.path = false :=
  ⟨by decide, by decide, by decide,
   (relative_folder_whitelist_mismatch rootPluginEnv ⟨["/install"], []⟩ "plugs"
      (by decide) (by decide) (by decide)).1,
   (relative_folder_whitelist_mismatch rootPluginEnv ⟨["/install"], []⟩ "plugs"
      (by decide) (by decide) (by decide)).2⟩

example : semverParse "1.2.3" = some ⟨1, 2, 3, []⟩ := by decide
example : semverParse "0.0.0-alpha" = some ⟨0, 0, 0, [PreId.alpha "alpha"]⟩ := by decide
example : semverValid "bogus" = false := by decide
example : compareSemVer ⟨0, 0, 0, []⟩ ⟨0, 0, 0, [PreId.alpha "alpha"]⟩ = .gt := by decide
example : compareSemVer ⟨1, 0, 0, []⟩ ⟨2, 0, 0, []⟩ = .lt := by decide
example : rcompareVersions "2.0.0" "1.0.0" = .lt := by decide

end GeneratorApp
